import Mathlib

/-!
Verification of the locsquash CLI (github.com/OutOfStack/locsquash).

The repository is a Go command-line tool that squashes the most recent N
commits of a git repository into one commit.  This file gives a shallow
embedding of the orchestration in `main.go` (`main`, `promptConfirm`,
`recoveryHint`) and of the git helpers in `git.go`
(`createBackupBranch`, `branchExists`, `gitHasChangesBetween`,
`gitCommitWithDates`, `stashPushAndGetRef`, `gitCommitCount`,
`gitLogSingle`), together with theorems settling the spec claims.

Modelling conventions:
* the repository is a `GitRepo`: the first-parent chain of commits with the
  tip first, the set of branch names, and the number of stash entries;
* the external git engine is a black-box command executor (as the spec
  says); queries are evaluated against the `GitRepo`, while the success of
  each mutating git command is supplied by an `Oracle` so that partial
  failure of the sequence can be analysed;
* every invocation of a mutating git command is recorded in a `trace`
  (the attempt is recorded even when the command fails); the repository
  state changes only on success;
* Go's `strings.TrimSpace` and `strings.ToLower` are modelled on the
  character list of the string so that they evaluate inside the kernel.
-/

namespace Locsquash

/-- Go `strings.TrimSpace`, modelled on the character list. -/
def trimSpace (s : String) : String :=
  ⟨((s.data.dropWhile Char.isWhitespace).reverse.dropWhile Char.isWhitespace).reverse⟩

/-- Go `strings.ToLower`, modelled on the character list. -/
def lowerStr (s : String) : String :=
  ⟨s.data.map Char.toLower⟩

/-- One commit of the first-parent chain: full message, author date,
committer date (the `%cI` string), and an abstract content snapshot
identifier (two refs differ under `git diff --quiet` iff their snapshot
identifiers differ). -/
structure Commit where
  message : String
  aDate : String
  cDate : String
  tree : Nat
  deriving DecidableEq

/-- The repository state: commit chain (tip first), branch names, and the
number of stash entries. -/
structure GitRepo where
  commits : List Commit
  branches : List String
  stashCount : Nat
  deriving DecidableEq

/-- `UserInput` from input.go: CLI flags provided by the user.
`squashCount` is a Go `int`, hence `Int` here (the flag default is 0 and a
negative value can be passed). -/
structure UserInput where
  squashCount : Int
  newMessage : String
  allowStash : Bool
  allowEmpty : Bool
  dryRun : Bool
  printRecovery : Bool
  noBackup : Bool
  yes : Bool
  deriving DecidableEq

/-- Success of each mutating git command issued by the executor; queries
are answered from the `GitRepo` itself. -/
structure Oracle where
  stashPushOk : Bool
  stashRefOk : Bool
  branchOk : Bool
  resetOk : Bool
  commitOk : Bool
  stashApplyOk : Bool
  stashDropOk : Bool
  deriving DecidableEq

/-- The complete environment of one invocation of the program. -/
structure Env where
  gitInstalled : Bool
  showVersion : Bool
  input : UserInput
  insideRepo : Bool
  opInProgress : Bool
  repo : GitRepo
  dirty : Bool
  nowStamp : String
  stdinTerminal : Bool
  response : Option String
  oracle : Oracle
  deriving DecidableEq

/-- A mutating git command invoked by the executor (recorded when the
command is attempted, whether or not it succeeds). -/
inductive Step where
  | stashPush
  | branchCreate (name : String)
  | softReset (n : Nat)
  | commitCreate (aDate cDate message : String) (allowEmpty : Bool)
  | stashApply
  | stashDrop
  deriving DecidableEq

/-- The reason of a `fatalf` exit, one per `fatalf` call site of main.go. -/
inductive FatalReason where
  | gitMissing
  | badCount
  | notGitRepo
  | opInProgress
  | tooFewCommits
  | countTooLarge
  | dirtyNoStash
  | oldestMsgErr
  | dateErr
  | diffErr
  | noNetChanges
  | stdinNotTerminal
  | stashPushFail
  | backupFail
  | resetFail
  | commitFail
  | stashApplyFail
  | stashDropFail
  deriving DecidableEq

/-- How the process terminated. -/
inductive Outcome where
  | versionShown
  | fatalExit (r : FatalReason)
  | previewDone
  | abortedByUser
  | squashed
  deriving DecidableEq

/-- The observable result of a run: termination kind, process exit code,
final repository state, trace of attempted mutating commands, whether the
non-fatal dirty-tree warning was printed, whether the commit list and
final message were printed before prompting, the backup branch name used
in output and recovery hints, and the fatal diagnostic text. -/
structure RunResult where
  outcome : Outcome
  exitCode : Nat
  repo : GitRepo
  trace : List Step
  warned : Bool
  printedPlan : Bool
  backupName : Option String
  fatalMsg : String
  deriving DecidableEq

/-- The stash reference returned by `stashPushAndGetRef` (git.go line 120). -/
def stashRefName : String := "stash@\x7b0\x7d"

/-- `recoveryHint` from main.go lines 199-204. -/
def recoveryHint (backupName : String) : String :=
  if backupName = "" then
    "\nRecovery: use git reflog to find the commit hash before the squash, then git reset --hard <hash>"
  else
    "\nRecovery: git reset --hard " ++ backupName

/-- Candidate backup branch name of attempt `i` in `createBackupBranch`
(git.go lines 47-51): the base name for `i = 0`, the base name with
numeric suffix `-(i+1)` afterwards. -/
def candidateName (base : String) (i : Nat) : String :=
  if i = 0 then base else base ++ "-" ++ toString (i + 1)

/-- Result of `createBackupBranch`: a branch was created under `name`;
the `git branch` command for the free candidate `name` failed; or all
candidates were taken and the attempt budget was exhausted. -/
inductive BackupResult where
  | created (name : String)
  | createFailed (name : String)
  | exhausted
  deriving DecidableEq

/-- `maxAttempts` from git.go line 46. -/
def maxAttempts : Nat := 10

/-- The loop body of `createBackupBranch` (git.go lines 47-61) over the
remaining attempt indices: skip candidates whose branch already exists,
then run `git branch name HEAD` on the first free candidate. -/
def backupTry (branches : List String) (base : String) (branchOk : Bool) :
    List Nat → BackupResult
  | [] => .exhausted
  | i :: rest =>
    let name := candidateName base i
    if name ∈ branches then backupTry branches base branchOk rest
    else if branchOk then .created name else .createFailed name

/-- `createBackupBranch` from git.go lines 45-63: create a branch from
HEAD, retrying with a numeric suffix if the base name already exists. -/
def createBackupBranch (branches : List String) (base : String) (branchOk : Bool) :
    BackupResult :=
  backupTry branches base branchOk (List.range maxAttempts)

/-- The affirmative-response check of `promptConfirm` (main.go lines
226-227): lowercased, trimmed response equal to "y" or "yes". -/
def affirmative (r : String) : Bool :=
  lowerStr (trimSpace r) == "y" || lowerStr (trimSpace r) == "yes"

/-- `promptConfirm` from main.go lines 217-228.  `none` means the fatal
non-terminal-stdin exit; `some b` is the user's decision (a read error is
a decline, main.go line 223-224). -/
def promptConfirm (stdinTerminal : Bool) (response : Option String) : Option Bool :=
  if stdinTerminal = false then none
  else
    match response with
    | none => some false
    | some r => some (affirmative r)

/-- The backup branch base name computed in main.go line 103. -/
def backupBaseName (nowStamp : String) : String :=
  "locsquash/backup-" ++ nowStamp

/-- The values main.go has computed by the time the mutating sequence
starts (the `SquashInfo` of the run together with its environment). -/
structure ExecCtx where
  env : Env
  n : Nat
  commitMessage : String
  recentDate : String
  oldTipTree : Nat
  backupBase : String
  warned : Bool
  printedPlan : Bool
  deriving DecidableEq

/-- Stash reapplication, main.go lines 176-185: if a stash was created,
apply it; only if the apply succeeds, drop it; a failed apply halts with
the stash preserved. -/
def execRestore (ctx : ExecCtx) (stashed : Bool) (repo : GitRepo)
    (trace : List Step) (backupName : Option String) : RunResult :=
  if stashed then
    let trace1 := trace ++ [Step.stashApply]
    if ctx.env.oracle.stashApplyOk = false then
      ⟨.fatalExit .stashApplyFail, 1, repo, trace1, ctx.warned, ctx.printedPlan, backupName,
        "Stash apply failed (stash preserved as " ++ stashRefName ++ ")" ++
          recoveryHint (backupName.getD "")⟩
    else
      let trace2 := trace1 ++ [Step.stashDrop]
      if ctx.env.oracle.stashDropOk = false then
        ⟨.fatalExit .stashDropFail, 1, repo, trace2, ctx.warned, ctx.printedPlan, backupName,
          "Applied stash but failed to drop " ++ stashRefName ++
            "\nYou can drop it manually later." ++ recoveryHint (backupName.getD "")⟩
      else
        ⟨.squashed, 0, { repo with stashCount := repo.stashCount - 1 }, trace2,
          ctx.warned, ctx.printedPlan, backupName, ""⟩
  else
    ⟨.squashed, 0, repo, trace, ctx.warned, ctx.printedPlan, backupName, ""⟩

/-- Squashed-commit creation, main.go lines 171-174 with
`gitCommitWithDates` (git.go lines 164-175): one new commit from the
staged content of the old tip, author and committer date both forced to
the preserved date, `--allow-empty` passed iff requested. -/
def execCommit (ctx : ExecCtx) (stashed : Bool) (repo : GitRepo)
    (trace : List Step) (backupName : Option String) : RunResult :=
  let trace1 := trace ++
    [Step.commitCreate ctx.recentDate ctx.recentDate ctx.commitMessage ctx.env.input.allowEmpty]
  if ctx.env.oracle.commitOk = false then
    ⟨.fatalExit .commitFail, 1, repo, trace1, ctx.warned, ctx.printedPlan, backupName,
      "Failed to create squashed commit" ++ recoveryHint (backupName.getD "")⟩
  else
    execRestore ctx stashed
      { repo with commits :=
          ⟨ctx.commitMessage, ctx.recentDate, ctx.recentDate, ctx.oldTipTree⟩ :: repo.commits }
      trace1 backupName

/-- Soft reset, main.go lines 165-168: move the branch pointer `n`
commits back; the content of the folded commits stays staged. -/
def execReset (ctx : ExecCtx) (stashed : Bool) (repo : GitRepo)
    (trace : List Step) (backupName : Option String) : RunResult :=
  let trace1 := trace ++ [Step.softReset ctx.n]
  if ctx.env.oracle.resetOk = false then
    ⟨.fatalExit .resetFail, 1, repo, trace1, ctx.warned, ctx.printedPlan, backupName,
      "Failed to perform soft reset" ++ recoveryHint (backupName.getD "")⟩
  else
    execCommit ctx stashed { repo with commits := repo.commits.drop ctx.n } trace1 backupName

/-- Backup branch creation, main.go lines 152-162: unless `-no-backup`,
create the backup branch (with suffix retries) and adopt the created name
for all later output; with `-no-backup` the name is cleared so recovery
hints fall back to the reflog. -/
def execBackup (ctx : ExecCtx) (stashed : Bool) (repo : GitRepo)
    (trace : List Step) : RunResult :=
  if ctx.env.input.noBackup = false then
    match createBackupBranch repo.branches ctx.backupBase ctx.env.oracle.branchOk with
    | .created name =>
      execReset ctx stashed { repo with branches := name :: repo.branches }
        (trace ++ [Step.branchCreate name]) (some name)
    | .createFailed name =>
      ⟨.fatalExit .backupFail, 1, repo, trace ++ [Step.branchCreate name],
        ctx.warned, ctx.printedPlan, none,
        "Failed to create backup branch " ++ ctx.backupBase⟩
    | .exhausted =>
      ⟨.fatalExit .backupFail, 1, repo, trace, ctx.warned, ctx.printedPlan, none,
        "Failed to create backup branch " ++ ctx.backupBase ++ " after 10 attempts"⟩
  else
    execReset ctx stashed repo trace none

/-- Auto-stash, main.go lines 142-150 with `stashPushAndGetRef` (git.go
lines 112-121): if the tree is dirty and auto-stash was requested, push a
stash entry and verify `refs/stash` resolves. -/
def execStash (ctx : ExecCtx) (repo : GitRepo) : RunResult :=
  if ctx.env.dirty && ctx.env.input.allowStash then
    if ctx.env.oracle.stashPushOk = false then
      ⟨.fatalExit .stashPushFail, 1, repo, [Step.stashPush],
        ctx.warned, ctx.printedPlan, none, "Failed to stash changes"⟩
    else
      let repo1 := { repo with stashCount := repo.stashCount + 1 }
      if ctx.env.oracle.stashRefOk = false then
        ⟨.fatalExit .stashPushFail, 1, repo1, [Step.stashPush],
          ctx.warned, ctx.printedPlan, none,
          "Failed to stash changes: stash push reported success but refs/stash not found"⟩
      else
        execBackup ctx true repo1 [Step.stashPush]
  else
    execBackup ctx false repo []

/-- Confirmation, main.go lines 132-139: unless `-yes`, print the commit
list and the final message and prompt; a non-terminal stdin is fatal, a
negative or empty response aborts with exit status 0; then run the
mutating sequence. -/
def mainConfirmPhase (env : Env) (n : Nat) (commitMessage recentDate : String)
    (oldTipTree : Nat) (warned : Bool) : RunResult :=
  match (if env.input.yes then some true
         else promptConfirm env.stdinTerminal env.response) with
  | none =>
    ⟨.fatalExit .stdinNotTerminal, 1, env.repo, [], warned, true, none,
      "Error: stdin is not a terminal. Use -y to skip confirmation in non-interactive mode."⟩
  | some false =>
    ⟨.abortedByUser, 0, env.repo, [], warned, true, none, ""⟩
  | some true =>
    execStash
      ⟨env, n, commitMessage, recentDate, oldTipTree,
        backupBaseName env.nowStamp, warned, !env.input.yes⟩
      env.repo

/-- Plan computation, main.go lines 84-130: oldest message and final
message, tip date, reset target, no-net-change check, commit list, and
the two preview-only exits. -/
def mainPlanPhase (env : Env) (n : Nat) (warned : Bool) : RunResult :=
  match env.repo.commits.get? (n - 1) with
  | none =>
    ⟨.fatalExit .oldestMsgErr, 1, env.repo, [], warned, false, none,
      "Failed to retrieve oldest commit message"⟩
  | some oldest =>
    let commitMessage :=
      if trimSpace env.input.newMessage = "" then trimSpace oldest.message
      else trimSpace env.input.newMessage
    match env.repo.commits.get? 0 with
    | none =>
      ⟨.fatalExit .dateErr, 1, env.repo, [], warned, false, none,
        "Failed to retrieve HEAD commit date"⟩
    | some tip =>
      match env.repo.commits.get? n with
      | none =>
        ⟨.fatalExit .diffErr, 1, env.repo, [], warned, false, none,
          "Error checking commit diff"⟩
      | some target =>
        let hasChanges := target.tree != tip.tree
        if hasChanges = false ∧ env.input.allowEmpty = false then
          ⟨.fatalExit .noNetChanges, 1, env.repo, [], warned, false, none,
            "Error: selected commits result in no net changes. Use --allow-empty to create an empty commit."⟩
        else if env.input.dryRun || env.input.printRecovery then
          ⟨.previewDone, 0, env.repo, [], warned, false, none, ""⟩
        else
          mainConfirmPhase env n commitMessage (trimSpace tip.cDate) tip.tree warned

/-- `main` from main.go: git presence check, version flag, count
validation, repository checks, cleanliness check, then plan computation
and the mutating sequence. -/
def mainRun (env : Env) : RunResult :=
  if env.gitInstalled = false then
    ⟨.fatalExit .gitMissing, 1, env.repo, [], false, false, none,
      "Error: git is not installed or not found in PATH."⟩
  else if env.showVersion then
    ⟨.versionShown, 0, env.repo, [], false, false, none, ""⟩
  else if env.input.squashCount < 2 then
    ⟨.fatalExit .badCount, 1, env.repo, [], false, false, none,
      "Error: -n (Number of last commits to squash) must be at least 2."⟩
  else
    let n := env.input.squashCount.toNat
    if env.insideRepo = false then
      ⟨.fatalExit .notGitRepo, 1, env.repo, [], false, false, none,
        "Error: not a git repository (or any of the parent directories)"⟩
    else if env.opInProgress then
      ⟨.fatalExit .opInProgress, 1, env.repo, [], false, false, none,
        "Error: git operation in progress; abort/finish it first"⟩
    else
      let total := env.repo.commits.length
      if total < 2 then
        ⟨.fatalExit .tooFewCommits, 1, env.repo, [], false, false, none,
          "Error: need at least 2 commits to squash."⟩
      else if total ≤ n then
        ⟨.fatalExit .countTooLarge, 1, env.repo, [], false, false, none,
          "Error: -n must be at most total-1 (one commit must remain as the base)."⟩
      else
        let preview := env.input.dryRun || env.input.printRecovery
        if env.dirty && !env.input.allowStash && !preview then
          ⟨.fatalExit .dirtyNoStash, 1, env.repo, [], false, false, none,
            "Error: uncommitted changes detected. Commit/stash them or rerun with --stash."⟩
        else
          mainPlanPhase env n (env.dirty && !env.input.allowStash && preview)


/-- An oracle under which every git command succeeds. -/
def oracleAllOk : Oracle := ⟨true, true, true, true, true, true, true⟩

/-- Flags of a plain `locsquash -n 2 -yes` invocation. -/
def inputYes2 : UserInput := ⟨2, "", false, false, false, false, false, true⟩

/-- A three-commit repository (tip first) with distinct content
snapshots. -/
def repoABC : GitRepo :=
  ⟨[⟨"third", "2024-01-03T10:00:00+02:00", "2024-01-03T10:00:00+02:00", 3⟩,
    ⟨"second", "2024-01-02T10:00:00+02:00", "2024-01-02T10:00:00+02:00", 2⟩,
    ⟨"first", "2024-01-01T10:00:00+02:00", "2024-01-01T10:00:00+02:00", 1⟩],
   [], 0⟩

/-- A clean interactive environment running `locsquash -n 2 -yes` on
`repoABC` with every git command succeeding. -/
def envBase : Env :=
  ⟨true, false, inputYes2, true, false, repoABC, false, "20240101-000000",
   true, none, oracleAllOk⟩

/-- A three-commit repository whose folded range has no net content
change: the reset target (2 behind the tip) has the same content snapshot
as the tip. -/
def repoNoChange : GitRepo :=
  ⟨[⟨"undo", "2024-02-03T10:00:00+02:00", "2024-02-03T10:00:00+02:00", 7⟩,
    ⟨"change", "2024-02-02T10:00:00+02:00", "2024-02-02T10:00:00+02:00", 9⟩,
    ⟨"base", "2024-02-01T10:00:00+02:00", "2024-02-01T10:00:00+02:00", 7⟩],
   [], 0⟩

/-- A three-commit repository whose oldest folded commit (1 behind the
tip for a squash of 2) has a message that trims to the empty string. -/
def repoBlankMsg : GitRepo :=
  ⟨[⟨"third", "2024-01-03T10:00:00+02:00", "2024-01-03T10:00:00+02:00", 3⟩,
    ⟨"  ", "2024-01-02T10:00:00+02:00", "2024-01-02T10:00:00+02:00", 2⟩,
    ⟨"first", "2024-01-01T10:00:00+02:00", "2024-01-01T10:00:00+02:00", 1⟩],
   [], 0⟩

/-- `strStartsWith s pat` holds when `s` starts with `pat` (compared on
the character lists). -/
def strStartsWith (s pat : String) : Bool :=
  List.take pat.data.length s.data == pat.data

/-- Modelled from the spec: the `-list-backups` handler is absent from the
provided sources (only the README documents the flag); per the spec it
enumerates the existing backup branches (the branches under the fixed
backup namespace) and exits with status 0. -/
def listBackupsRun (repo : GitRepo) : Nat × List String :=
  (0, repo.branches.filter (fun b => strStartsWith b "locsquash/backup-"))

/-! Helper lemmas: characterization of the successful mutating sequence,
phase by phase. -/

theorem execRestore_squashed_spec (ctx : ExecCtx) (stashed : Bool) (repo : GitRepo)
    (trace : List Step) (bn : Option String) (r : RunResult)
    (hr : execRestore ctx stashed repo trace bn = r) (h : r.outcome = .squashed) :
    r.repo.commits = repo.commits ∧ r.repo.branches = repo.branches ∧
    r.backupName = bn ∧ ∀ s, s ∈ trace → s ∈ r.trace := by
  simp only [execRestore] at hr
  split at hr
  · split at hr
    · subst hr; simp at h
    · split at hr
      · subst hr; simp at h
      · subst hr
        refine ⟨rfl, rfl, rfl, ?_⟩
        intro s hs
        simp [List.mem_append, hs]
  · subst hr
    exact ⟨rfl, rfl, rfl, fun s hs => hs⟩

theorem execCommit_squashed_spec (ctx : ExecCtx) (stashed : Bool) (repo : GitRepo)
    (trace : List Step) (bn : Option String) (r : RunResult)
    (hr : execCommit ctx stashed repo trace bn = r) (h : r.outcome = .squashed) :
    r.repo.commits =
      (⟨ctx.commitMessage, ctx.recentDate, ctx.recentDate, ctx.oldTipTree⟩ : Commit) ::
        repo.commits ∧
    r.repo.branches = repo.branches ∧ r.backupName = bn ∧
    Step.commitCreate ctx.recentDate ctx.recentDate ctx.commitMessage
      ctx.env.input.allowEmpty ∈ r.trace := by
  simp only [execCommit] at hr
  split at hr
  · subst hr; simp at h
  · have := execRestore_squashed_spec ctx stashed _ _ bn r hr h
    refine ⟨this.1, this.2.1, this.2.2.1, ?_⟩
    exact this.2.2.2 _ (by simp)

theorem execReset_squashed_spec (ctx : ExecCtx) (stashed : Bool) (repo : GitRepo)
    (trace : List Step) (bn : Option String) (r : RunResult)
    (hr : execReset ctx stashed repo trace bn = r) (h : r.outcome = .squashed) :
    r.repo.commits =
      (⟨ctx.commitMessage, ctx.recentDate, ctx.recentDate, ctx.oldTipTree⟩ : Commit) ::
        repo.commits.drop ctx.n ∧
    r.repo.branches = repo.branches ∧ r.backupName = bn ∧
    Step.commitCreate ctx.recentDate ctx.recentDate ctx.commitMessage
      ctx.env.input.allowEmpty ∈ r.trace := by
  simp only [execReset] at hr
  split at hr
  · subst hr; simp at h
  · exact execCommit_squashed_spec ctx stashed _ _ bn r hr h

theorem execBackup_squashed_spec (ctx : ExecCtx) (stashed : Bool) (repo : GitRepo)
    (trace : List Step) (r : RunResult)
    (hr : execBackup ctx stashed repo trace = r) (h : r.outcome = .squashed) :
    r.repo.commits =
      (⟨ctx.commitMessage, ctx.recentDate, ctx.recentDate, ctx.oldTipTree⟩ : Commit) ::
        repo.commits.drop ctx.n ∧
    Step.commitCreate ctx.recentDate ctx.recentDate ctx.commitMessage
      ctx.env.input.allowEmpty ∈ r.trace ∧
    (ctx.env.input.noBackup = false →
      ∃ name, createBackupBranch repo.branches ctx.backupBase ctx.env.oracle.branchOk =
          .created name ∧
        r.backupName = some name ∧ name ∈ r.repo.branches) ∧
    (ctx.env.input.noBackup = true → r.backupName = none) := by
  simp only [execBackup] at hr
  split at hr
  · rename_i hnb
    split at hr
    · rename_i name hcr
      have := execReset_squashed_spec ctx stashed _ _ (some name) r hr h
      refine ⟨this.1, this.2.2.2, ?_, ?_⟩
      · intro _
        exact ⟨name, hcr, this.2.2.1, by rw [this.2.1]; simp⟩
      · intro hh; rw [hnb] at hh; cases hh
    · subst hr; simp at h
    · subst hr; simp at h
  · rename_i hnb
    have := execReset_squashed_spec ctx stashed _ _ none r hr h
    refine ⟨this.1, this.2.2.2, ?_, fun _ => this.2.2.1⟩
    intro hh
    simp only [Bool.not_eq_false] at hnb
    rw [hnb] at hh; cases hh

theorem execStash_squashed_spec (ctx : ExecCtx) (repo : GitRepo) (r : RunResult)
    (hr : execStash ctx repo = r) (h : r.outcome = .squashed) :
    r.repo.commits =
      (⟨ctx.commitMessage, ctx.recentDate, ctx.recentDate, ctx.oldTipTree⟩ : Commit) ::
        repo.commits.drop ctx.n ∧
    Step.commitCreate ctx.recentDate ctx.recentDate ctx.commitMessage
      ctx.env.input.allowEmpty ∈ r.trace ∧
    (ctx.env.input.noBackup = false →
      ∃ name, createBackupBranch repo.branches ctx.backupBase ctx.env.oracle.branchOk =
          .created name ∧
        r.backupName = some name ∧ name ∈ r.repo.branches) ∧
    (ctx.env.input.noBackup = true → r.backupName = none) := by
  simp only [execStash] at hr
  split at hr
  · split at hr
    · subst hr; simp at h
    · split at hr
      · subst hr; simp at h
      · simpa using execBackup_squashed_spec ctx true _ _ r hr h
  · exact execBackup_squashed_spec ctx false _ _ r hr h

theorem mainConfirmPhase_squashed_spec (env : Env) (n : Nat)
    (commitMessage recentDate : String) (oldTipTree : Nat) (warned : Bool)
    (r : RunResult)
    (hr : mainConfirmPhase env n commitMessage recentDate oldTipTree warned = r)
    (h : r.outcome = .squashed) :
    execStash
      ⟨env, n, commitMessage, recentDate, oldTipTree,
        backupBaseName env.nowStamp, warned, !env.input.yes⟩
      env.repo = r := by
  simp only [mainConfirmPhase] at hr
  split at hr
  · subst hr; simp at h
  · subst hr; simp at h
  · exact hr

theorem mainPlanPhase_squashed_spec (env : Env) (n : Nat) (warned : Bool)
    (r : RunResult)
    (hr : mainPlanPhase env n warned = r) (h : r.outcome = .squashed) :
    ∃ oldest tip target,
      env.repo.commits.get? (n - 1) = some oldest ∧
      env.repo.commits.get? 0 = some tip ∧
      env.repo.commits.get? n = some target ∧
      ((target.tree != tip.tree) = true ∨ env.input.allowEmpty = true) ∧
      env.input.dryRun = false ∧ env.input.printRecovery = false ∧
      execStash
        ⟨env, n,
          (if trimSpace env.input.newMessage = "" then trimSpace oldest.message
           else trimSpace env.input.newMessage),
          trimSpace tip.cDate, tip.tree, backupBaseName env.nowStamp, warned,
          !env.input.yes⟩
        env.repo = r := by
  simp only [mainPlanPhase] at hr
  split at hr
  · subst hr; simp at h
  · rename_i oldest holdest
    split at hr
    · subst hr; simp at h
    · rename_i tip htip
      split at hr
      · subst hr; simp at h
      · rename_i target htarget
        split at hr
        · subst hr; simp at h
        · rename_i hchg
          split at hr
          · subst hr; simp at h
          · rename_i hprev
            refine ⟨oldest, tip, target, holdest, htip, htarget, ?_, ?_, ?_, ?_⟩
            · by_cases hb : env.input.allowEmpty = true
              · exact Or.inr hb
              · left
                have hA : ¬((target.tree != tip.tree) = false) :=
                  fun hf => hchg ⟨hf, by simpa using hb⟩
                simpa using hA
            · rw [Bool.or_eq_true] at hprev
              push_neg at hprev
              simpa using hprev.1
            · rw [Bool.or_eq_true] at hprev
              push_neg at hprev
              simpa using hprev.2
            · exact mainConfirmPhase_squashed_spec env n _ _ _ warned r hr h

theorem mainRun_squashed_spec (env : Env) (r : RunResult)
    (hr : mainRun env = r) (h : r.outcome = .squashed) :
    env.gitInstalled = true ∧ env.showVersion = false ∧
    2 ≤ env.input.squashCount ∧
    env.input.squashCount.toNat < env.repo.commits.length ∧
    ∃ w, mainPlanPhase env env.input.squashCount.toNat w = r := by
  simp only [mainRun] at hr
  split at hr
  · subst hr; simp at h
  · split at hr
    · subst hr; simp at h
    · split at hr
      · subst hr; simp at h
      · split at hr
        · subst hr; simp at h
        · split at hr
          · subst hr; simp at h
          · split at hr
            · subst hr; simp at h
            · split at hr
              · subst hr; simp at h
              · split at hr
                · subst hr; simp at h
                · rename_i hgit hver hcnt _ _ _ hle _
                  refine ⟨by simpa using hgit, by simpa using hver, by omega, by omega, _, hr⟩


/-! Claim theorems. -/

/-- C1: for every repository with T commits and every request with
2 ≤ N < T, after a successful real (non-preview) run exactly T-N+1
commits remain on the branch, and both the author date and the committer
date of the new tip commit equal, as an exact string, the ISO-8601
committer date of the pre-run tip commit (read once from the old tip and
passed verbatim as both dates; never "now"). -/
theorem c1_count_and_dates_after_squash (env : Env) (tip : Commit) (r : RunResult)
    (htip : env.repo.commits.get? 0 = some tip)
    (hiso : trimSpace tip.cDate = tip.cDate)
    (hr : mainRun env = r) (h : r.outcome = .squashed) :
    2 ≤ env.input.squashCount.toNat ∧
    env.input.squashCount.toNat < env.repo.commits.length ∧
    env.input.dryRun = false ∧ env.input.printRecovery = false ∧
    r.repo.commits.length =
      env.repo.commits.length - env.input.squashCount.toNat + 1 ∧
    ∃ newTip, r.repo.commits.get? 0 = some newTip ∧
      newTip.aDate = tip.cDate ∧ newTip.cDate = tip.cDate := by
  obtain ⟨_, _, hcnt, hlt, w, hplan⟩ := mainRun_squashed_spec env r hr h
  obtain ⟨oldest, tip2, target, holdest, htip2, htarget, hch, hdr, hpr, hexec⟩ :=
    mainPlanPhase_squashed_spec env _ w r hplan h
  have htt : tip2 = tip := by
    rw [htip] at htip2
    exact (Option.some_inj.mp htip2).symm
  subst htt
  have hsp := execStash_squashed_spec _ _ r hexec h
  refine ⟨by omega, hlt, hdr, hpr, ?_, ?_⟩
  · rw [hsp.1]
    simp only [List.length_cons, List.length_drop]
  · refine ⟨_, by rw [hsp.1]; rfl, ?_, ?_⟩ <;> simpa using hiso

/-- C1 witness: the theorem applies to the concrete run of
`locsquash -n 2 -yes` on the three-commit repository `repoABC`. -/
theorem c1_count_and_dates_after_squash_witness :
    2 ≤ envBase.input.squashCount.toNat ∧
    envBase.input.squashCount.toNat < envBase.repo.commits.length ∧
    envBase.input.dryRun = false ∧ envBase.input.printRecovery = false ∧
    (mainRun envBase).repo.commits.length =
      envBase.repo.commits.length - envBase.input.squashCount.toNat + 1 ∧
    ∃ newTip, (mainRun envBase).repo.commits.get? 0 = some newTip ∧
      newTip.aDate = "2024-01-03T10:00:00+02:00" ∧
      newTip.cDate = "2024-01-03T10:00:00+02:00" :=
  c1_count_and_dates_after_squash envBase
    ⟨"third", "2024-01-03T10:00:00+02:00", "2024-01-03T10:00:00+02:00", 3⟩
    (mainRun envBase) (by decide) (by decide) rfl (by decide)

theorem mainRun_final_message (env : Env) (oldest : Commit) (r : RunResult)
    (holdest : env.repo.commits.get? (env.input.squashCount.toNat - 1) = some oldest)
    (hr : mainRun env = r) (h : r.outcome = .squashed) :
    (r.repo.commits.get? 0).map Commit.message =
      some (if trimSpace env.input.newMessage = "" then trimSpace oldest.message
            else trimSpace env.input.newMessage) := by
  obtain ⟨_, _, hcnt, hlt, w, hplan⟩ := mainRun_squashed_spec env r hr h
  obtain ⟨oldest2, tip2, target, holdest2, htip2, htarget, hch, hdr, hpr, hexec⟩ :=
    mainPlanPhase_squashed_spec env _ w r hplan h
  have hoo : oldest2 = oldest := by
    rw [holdest] at holdest2
    exact (Option.some_inj.mp holdest2).symm
  subst hoo
  have hsp := execStash_squashed_spec _ _ r hexec h
  rw [hsp.1]
  rfl

/-- C2: the final commit message of the squashed commit equals the
whitespace-trimmed explicit -m override when that trimmed override is
non-empty, otherwise the whitespace-trimmed full message of the commit
N-1 behind the old tip (the oldest commit being folded). -/
theorem c2_final_commit_message (env : Env) (oldest : Commit) (r : RunResult)
    (holdest : env.repo.commits.get? (env.input.squashCount.toNat - 1) = some oldest)
    (hr : mainRun env = r) (h : r.outcome = .squashed) :
    (r.repo.commits.get? 0).map Commit.message =
      some (if trimSpace env.input.newMessage = "" then trimSpace oldest.message
            else trimSpace env.input.newMessage) :=
  mainRun_final_message env oldest r holdest hr h

/-- C2 witness: concrete runs with and without a -m override. -/
theorem c2_final_commit_message_witness :
    ((mainRun envBase).repo.commits.get? 0).map Commit.message =
      some (if trimSpace envBase.input.newMessage = "" then trimSpace "second"
            else trimSpace envBase.input.newMessage) :=
  c2_final_commit_message envBase
    ⟨"second", "2024-01-02T10:00:00+02:00", "2024-01-02T10:00:00+02:00", 2⟩
    (mainRun envBase) (by decide) rfl (by decide)


/-- C8 counterexample: with no -m override and an oldest folded message
of "  " (which trims to empty), the run does not fail before proceeding:
it performs its mutating steps and commits with an empty final message. -/
theorem c8_counterexample_empty_message_not_error :
    trimSpace (Env.mk true false inputYes2 true false repoBlankMsg false
        "20240101-000000" true none oracleAllOk).input.newMessage = "" ∧
    (repoBlankMsg.commits.get? 1).map (fun c => trimSpace c.message) = some "" ∧
    (mainRun (Env.mk true false inputYes2 true false repoBlankMsg false
        "20240101-000000" true none oracleAllOk)).outcome = .squashed ∧
    (mainRun (Env.mk true false inputYes2 true false repoBlankMsg false
        "20240101-000000" true none oracleAllOk)).trace ≠ [] ∧
    ((mainRun (Env.mk true false inputYes2 true false repoBlankMsg false
        "20240101-000000" true none oracleAllOk)).repo.commits.get? 0).map
      Commit.message = some "" := by decide

/-- C8 amended: when the explicit override trims to empty and the message
of the oldest folded commit also trims to empty, the program does not
treat this as an error state: the computed final message is the empty
string and a successful run proceeds and commits with it. -/
theorem c8_amended_empty_message_propagates (env : Env) (oldest : Commit)
    (r : RunResult)
    (holdest : env.repo.commits.get? (env.input.squashCount.toNat - 1) = some oldest)
    (hm : trimSpace env.input.newMessage = "")
    (ho : trimSpace oldest.message = "")
    (hr : mainRun env = r) (h : r.outcome = .squashed) :
    (r.repo.commits.get? 0).map Commit.message = some "" := by
  have hmsg := mainRun_final_message env oldest r holdest hr h
  rw [hm, ho] at hmsg
  simpa using hmsg

/-- C8 amended witness: the concrete run on `repoBlankMsg`. -/
theorem c8_amended_empty_message_propagates_witness :
    ((mainRun (Env.mk true false inputYes2 true false repoBlankMsg false
        "20240102-000000" true none oracleAllOk)).repo.commits.get? 0).map
      Commit.message = some "" :=
  c8_amended_empty_message_propagates
    (Env.mk true false inputYes2 true false repoBlankMsg false
      "20240102-000000" true none oracleAllOk)
    ⟨"  ", "2024-01-02T10:00:00+02:00", "2024-01-02T10:00:00+02:00", 2⟩
    _ (by decide) (by decide) (by decide) rfl (by decide)

/-- C9: invoking the program with the -list-backups flag enumerates the
existing backup branches (exactly the branches under the backup
namespace) and exits with status 0 (handler modelled from the spec, its
implementation being absent from the provided sources). -/
theorem c9_list_backups (repo : GitRepo) :
    (listBackupsRun repo).1 = 0 ∧
    ∀ b, b ∈ (listBackupsRun repo).2 ↔
      (b ∈ repo.branches ∧ strStartsWith b "locsquash/backup-" = true) := by
  refine ⟨rfl, fun b => ?_⟩
  simp [listBackupsRun, List.mem_filter]

/-- C9 witness: a concrete repository with one backup branch and one
other branch. -/
theorem c9_list_backups_witness :
    (listBackupsRun ⟨[], ["locsquash/backup-20240101-000000", "main"], 0⟩).1 = 0 ∧
    ("locsquash/backup-20240101-000000" ∈
        (listBackupsRun ⟨[], ["locsquash/backup-20240101-000000", "main"], 0⟩).2 ↔
      ("locsquash/backup-20240101-000000" ∈
          (["locsquash/backup-20240101-000000", "main"] : List String) ∧
        strStartsWith "locsquash/backup-20240101-000000" "locsquash/backup-" = true)) :=
  ⟨(c9_list_backups ⟨[], ["locsquash/backup-20240101-000000", "main"], 0⟩).1,
   (c9_list_backups ⟨[], ["locsquash/backup-20240101-000000", "main"], 0⟩).2 _⟩

/-- C10: with -version or -v set, the program prints the version and
exits 0 before any other validation (no hypothesis on the count or the
repository), but the git presence check still runs first: without git on
the path the same invocation exits fatally. -/
theorem c10_version_after_git_check (env : Env) :
    (env.gitInstalled = true → env.showVersion = true →
      (mainRun env).outcome = .versionShown ∧ (mainRun env).exitCode = 0 ∧
      (mainRun env).trace = [] ∧ (mainRun env).repo = env.repo) ∧
    (env.gitInstalled = false →
      (mainRun env).outcome = .fatalExit .gitMissing ∧
      (mainRun env).exitCode = 1 ∧ (mainRun env).trace = []) := by
  constructor
  · intro hg hv
    simp [mainRun, hg, hv]
  · intro hg
    simp [mainRun, hg]

/-- C10 witness: the version exit happens with an invalid count outside a
repository, and the git presence check precedes it. -/
theorem c10_version_after_git_check_witness :
    ((mainRun (Env.mk true true (UserInput.mk 0 "" false false false false false false)
        false false repoABC false "20240101-000000" true none oracleAllOk)).outcome =
      .versionShown ∧
     (mainRun (Env.mk true true (UserInput.mk 0 "" false false false false false false)
        false false repoABC false "20240101-000000" true none oracleAllOk)).exitCode = 0 ∧
     (mainRun (Env.mk true true (UserInput.mk 0 "" false false false false false false)
        false false repoABC false "20240101-000000" true none oracleAllOk)).trace = [] ∧
     (mainRun (Env.mk true true (UserInput.mk 0 "" false false false false false false)
        false false repoABC false "20240101-000000" true none oracleAllOk)).repo =
       (Env.mk true true (UserInput.mk 0 "" false false false false false false)
        false false repoABC false "20240101-000000" true none oracleAllOk).repo) ∧
    ((mainRun (Env.mk false true (UserInput.mk 0 "" false false false false false false)
        false false repoABC false "20240101-000000" true none oracleAllOk)).outcome =
      .fatalExit .gitMissing ∧
     (mainRun (Env.mk false true (UserInput.mk 0 "" false false false false false false)
        false false repoABC false "20240101-000000" true none oracleAllOk)).exitCode = 1 ∧
     (mainRun (Env.mk false true (UserInput.mk 0 "" false false false false false false)
        false false repoABC false "20240101-000000" true none oracleAllOk)).trace = []) :=
  ⟨(c10_version_after_git_check _).1 rfl rfl,
   (c10_version_after_git_check _).2 rfl⟩


/-! Helper lemmas for the stash-restore contract: characterization of the
stash-apply failure and of the conditions under which a stash drop is
attempted. -/

theorem execRestore_applyFail_spec (ctx : ExecCtx) (stashed : Bool) (repo : GitRepo)
    (trace : List Step) (bn : Option String) (r : RunResult)
    (hr : execRestore ctx stashed repo trace bn = r)
    (h : r.outcome = .fatalExit .stashApplyFail) :
    stashed = true ∧ ctx.env.oracle.stashApplyOk = false ∧
    r.repo = repo ∧ r.trace = trace ++ [Step.stashApply] ∧
    r.fatalMsg =
      "Stash apply failed (stash preserved as " ++ stashRefName ++ ")" ++
        recoveryHint (bn.getD "") := by
  simp only [execRestore] at hr
  split at hr
  · rename_i hst
    split at hr
    · rename_i hap
      subst hr
      exact ⟨by simpa using hst, hap, rfl, rfl, rfl⟩
    · split at hr
      · subst hr; simp at h
      · subst hr; simp at h
  · subst hr; simp at h

theorem execCommit_applyFail_spec (ctx : ExecCtx) (stashed : Bool) (repo : GitRepo)
    (trace : List Step) (bn : Option String) (r : RunResult)
    (hr : execCommit ctx stashed repo trace bn = r)
    (h : r.outcome = .fatalExit .stashApplyFail) :
    stashed = true ∧ ctx.env.oracle.stashApplyOk = false ∧
    r.repo.stashCount = repo.stashCount ∧
    (Step.stashDrop ∉ trace → Step.stashDrop ∉ r.trace) ∧
    Step.stashApply ∈ r.trace ∧ (∀ s, s ∈ trace → s ∈ r.trace) ∧
    ∃ hint, r.fatalMsg =
      "Stash apply failed (stash preserved as " ++ stashRefName ++ ")" ++ hint := by
  simp only [execCommit] at hr
  split at hr
  · subst hr; simp at h
  · have hra := execRestore_applyFail_spec ctx stashed _ _ bn r hr h
    refine ⟨hra.1, hra.2.1, by rw [hra.2.2.1], ?_, ?_, ?_, _, hra.2.2.2.2⟩
    · intro hnd
      rw [hra.2.2.2.1]
      simp [List.mem_append, hnd]
    · rw [hra.2.2.2.1]; simp
    · intro s hs
      rw [hra.2.2.2.1]
      simp [List.mem_append, hs]

theorem execReset_applyFail_spec (ctx : ExecCtx) (stashed : Bool) (repo : GitRepo)
    (trace : List Step) (bn : Option String) (r : RunResult)
    (hr : execReset ctx stashed repo trace bn = r)
    (h : r.outcome = .fatalExit .stashApplyFail) :
    stashed = true ∧ ctx.env.oracle.stashApplyOk = false ∧
    r.repo.stashCount = repo.stashCount ∧
    (Step.stashDrop ∉ trace → Step.stashDrop ∉ r.trace) ∧
    Step.stashApply ∈ r.trace ∧ (∀ s, s ∈ trace → s ∈ r.trace) ∧
    ∃ hint, r.fatalMsg =
      "Stash apply failed (stash preserved as " ++ stashRefName ++ ")" ++ hint := by
  simp only [execReset] at hr
  split at hr
  · subst hr; simp at h
  · have hc := execCommit_applyFail_spec ctx stashed _ _ bn r hr h
    refine ⟨hc.1, hc.2.1, by rw [hc.2.2.1], ?_, hc.2.2.2.2.1, ?_, hc.2.2.2.2.2.2⟩
    · intro hnd
      refine hc.2.2.2.1 ?_
      simp [List.mem_append, hnd]
    · intro s hs
      exact hc.2.2.2.2.2.1 s (by simp [List.mem_append, hs])

theorem execBackup_applyFail_spec (ctx : ExecCtx) (stashed : Bool) (repo : GitRepo)
    (trace : List Step) (r : RunResult)
    (hr : execBackup ctx stashed repo trace = r)
    (h : r.outcome = .fatalExit .stashApplyFail) :
    stashed = true ∧ ctx.env.oracle.stashApplyOk = false ∧
    r.repo.stashCount = repo.stashCount ∧
    (Step.stashDrop ∉ trace → Step.stashDrop ∉ r.trace) ∧
    Step.stashApply ∈ r.trace ∧ (∀ s, s ∈ trace → s ∈ r.trace) ∧
    ∃ hint, r.fatalMsg =
      "Stash apply failed (stash preserved as " ++ stashRefName ++ ")" ++ hint := by
  simp only [execBackup] at hr
  split at hr
  · split at hr
    · have hc := execReset_applyFail_spec ctx stashed _ _ _ r hr h
      refine ⟨hc.1, hc.2.1, by rw [hc.2.2.1], ?_, hc.2.2.2.2.1, ?_, hc.2.2.2.2.2.2⟩
      · intro hnd
        refine hc.2.2.2.1 ?_
        simp [List.mem_append, hnd]
      · intro s hs
        exact hc.2.2.2.2.2.1 s (by simp [List.mem_append, hs])
    · subst hr; simp at h
    · subst hr; simp at h
  · exact execReset_applyFail_spec ctx stashed _ _ _ r hr h

theorem execStash_applyFail_spec (ctx : ExecCtx) (repo : GitRepo) (r : RunResult)
    (hr : execStash ctx repo = r)
    (h : r.outcome = .fatalExit .stashApplyFail) :
    ctx.env.oracle.stashApplyOk = false ∧
    Step.stashPush ∈ r.trace ∧ Step.stashApply ∈ r.trace ∧
    Step.stashDrop ∉ r.trace ∧
    r.repo.stashCount = repo.stashCount + 1 ∧
    ∃ hint, r.fatalMsg =
      "Stash apply failed (stash preserved as " ++ stashRefName ++ ")" ++ hint := by
  simp only [execStash] at hr
  split at hr
  · split at hr
    · subst hr; simp at h
    · split at hr
      · subst hr; simp at h
      · have hb := execBackup_applyFail_spec ctx true _ _ r hr h
        refine ⟨hb.2.1, ?_, hb.2.2.2.2.1, ?_, by simpa using hb.2.2.1, hb.2.2.2.2.2.2⟩
        · exact hb.2.2.2.2.2.1 _ (by simp)
        · exact hb.2.2.2.1 (by simp)
  · have hb := execBackup_applyFail_spec ctx false _ _ r hr h
    exact absurd hb.1 (by simp)

theorem execRestore_drop_spec (ctx : ExecCtx) (stashed : Bool) (repo : GitRepo)
    (trace : List Step) (bn : Option String) (r : RunResult)
    (hr : execRestore ctx stashed repo trace bn = r)
    (hnd : Step.stashDrop ∉ trace) (h : Step.stashDrop ∈ r.trace) :
    ctx.env.oracle.stashApplyOk = true ∧ Step.stashApply ∈ r.trace := by
  simp only [execRestore] at hr
  split at hr
  · split at hr
    · subst hr
      simp only [List.mem_append, List.mem_singleton] at h
      rcases h with h | h
      · exact absurd h hnd
      · cases h
    · rename_i hap
      split at hr
      · subst hr
        refine ⟨by simpa using hap, ?_⟩
        simp [List.mem_append]
      · subst hr
        refine ⟨by simpa using hap, ?_⟩
        simp [List.mem_append]
  · subst hr
    exact absurd h hnd

theorem execCommit_drop_spec (ctx : ExecCtx) (stashed : Bool) (repo : GitRepo)
    (trace : List Step) (bn : Option String) (r : RunResult)
    (hr : execCommit ctx stashed repo trace bn = r)
    (hnd : Step.stashDrop ∉ trace) (h : Step.stashDrop ∈ r.trace) :
    ctx.env.oracle.stashApplyOk = true ∧ Step.stashApply ∈ r.trace := by
  simp only [execCommit] at hr
  split at hr
  · subst hr
    simp only [List.mem_append, List.mem_singleton] at h
    rcases h with h | h
    · exact absurd h hnd
    · cases h
  · exact execRestore_drop_spec ctx stashed _ _ bn r hr
      (by simp [List.mem_append, hnd]) h

theorem execReset_drop_spec (ctx : ExecCtx) (stashed : Bool) (repo : GitRepo)
    (trace : List Step) (bn : Option String) (r : RunResult)
    (hr : execReset ctx stashed repo trace bn = r)
    (hnd : Step.stashDrop ∉ trace) (h : Step.stashDrop ∈ r.trace) :
    ctx.env.oracle.stashApplyOk = true ∧ Step.stashApply ∈ r.trace := by
  simp only [execReset] at hr
  split at hr
  · subst hr
    simp only [List.mem_append, List.mem_singleton] at h
    rcases h with h | h
    · exact absurd h hnd
    · cases h
  · exact execCommit_drop_spec ctx stashed _ _ bn r hr
      (by simp [List.mem_append, hnd]) h

theorem execBackup_drop_spec (ctx : ExecCtx) (stashed : Bool) (repo : GitRepo)
    (trace : List Step) (r : RunResult)
    (hr : execBackup ctx stashed repo trace = r)
    (hnd : Step.stashDrop ∉ trace) (h : Step.stashDrop ∈ r.trace) :
    ctx.env.oracle.stashApplyOk = true ∧ Step.stashApply ∈ r.trace := by
  simp only [execBackup] at hr
  split at hr
  · split at hr
    · exact execReset_drop_spec ctx stashed _ _ _ r hr
        (by simp [List.mem_append, hnd]) h
    · subst hr
      simp only [List.mem_append, List.mem_singleton] at h
      rcases h with h | h
      · exact absurd h hnd
      · cases h
    · subst hr
      exact absurd h hnd
  · exact execReset_drop_spec ctx stashed _ _ _ r hr hnd h

theorem execStash_drop_spec (ctx : ExecCtx) (repo : GitRepo) (r : RunResult)
    (hr : execStash ctx repo = r) (h : Step.stashDrop ∈ r.trace) :
    ctx.env.oracle.stashApplyOk = true ∧ Step.stashApply ∈ r.trace := by
  simp only [execStash] at hr
  split at hr
  · split at hr
    · subst hr; simp at h
    · split at hr
      · subst hr; simp at h
      · exact execBackup_drop_spec ctx true _ _ r hr (by simp) h
  · exact execBackup_drop_spec ctx false _ _ r hr (by simp) h


theorem mainConfirmPhase_c4_spec (env : Env) (n : Nat) (cm rd : String)
    (t : Nat) (w : Bool) (r : RunResult)
    (hr : mainConfirmPhase env n cm rd t w = r) :
    (r.outcome = .fatalExit .stashApplyFail →
      env.oracle.stashApplyOk = false ∧
      Step.stashPush ∈ r.trace ∧ Step.stashApply ∈ r.trace ∧
      Step.stashDrop ∉ r.trace ∧
      r.repo.stashCount = env.repo.stashCount + 1 ∧
      ∃ hint, r.fatalMsg =
        "Stash apply failed (stash preserved as " ++ stashRefName ++ ")" ++ hint) ∧
    (Step.stashDrop ∈ r.trace →
      env.oracle.stashApplyOk = true ∧ Step.stashApply ∈ r.trace) := by
  simp only [mainConfirmPhase] at hr
  split at hr
  · subst hr
    constructor
    · intro h; simp at h
    · intro h; simp at h
  · subst hr
    constructor
    · intro h; simp at h
    · intro h; simp at h
  · constructor
    · intro h
      exact execStash_applyFail_spec _ _ r hr h
    · intro h
      exact execStash_drop_spec _ _ r hr h

theorem mainPlanPhase_c4_spec (env : Env) (n : Nat) (w : Bool) (r : RunResult)
    (hr : mainPlanPhase env n w = r) :
    (r.outcome = .fatalExit .stashApplyFail →
      env.oracle.stashApplyOk = false ∧
      Step.stashPush ∈ r.trace ∧ Step.stashApply ∈ r.trace ∧
      Step.stashDrop ∉ r.trace ∧
      r.repo.stashCount = env.repo.stashCount + 1 ∧
      ∃ hint, r.fatalMsg =
        "Stash apply failed (stash preserved as " ++ stashRefName ++ ")" ++ hint) ∧
    (Step.stashDrop ∈ r.trace →
      env.oracle.stashApplyOk = true ∧ Step.stashApply ∈ r.trace) := by
  simp only [mainPlanPhase] at hr
  split at hr
  · subst hr
    exact ⟨fun h => by simp at h, fun h => by simp at h⟩
  · split at hr
    · subst hr
      exact ⟨fun h => by simp at h, fun h => by simp at h⟩
    · split at hr
      · subst hr
        exact ⟨fun h => by simp at h, fun h => by simp at h⟩
      · split at hr
        · subst hr
          exact ⟨fun h => by simp at h, fun h => by simp at h⟩
        · split at hr
          · subst hr
            exact ⟨fun h => by simp at h, fun h => by simp at h⟩
          · exact mainConfirmPhase_c4_spec env n _ _ _ w r hr

/-- C4: in every run that created a stash, the stash entry is dropped
only after its reapplication succeeds: if the stash apply step fails, no
stash drop is ever attempted, the stash entry is left intact, and the run
halts with a message naming the preserved stash reference. -/
theorem c4_stash_drop_only_after_apply (env : Env) (r : RunResult)
    (hr : mainRun env = r) :
    (r.outcome = .fatalExit .stashApplyFail →
      env.oracle.stashApplyOk = false ∧
      Step.stashPush ∈ r.trace ∧ Step.stashApply ∈ r.trace ∧
      Step.stashDrop ∉ r.trace ∧
      r.repo.stashCount = env.repo.stashCount + 1 ∧
      ∃ hint, r.fatalMsg =
        "Stash apply failed (stash preserved as " ++ stashRefName ++ ")" ++ hint) ∧
    (Step.stashDrop ∈ r.trace →
      env.oracle.stashApplyOk = true ∧ Step.stashApply ∈ r.trace) := by
  simp only [mainRun] at hr
  split at hr
  · subst hr
    exact ⟨fun h => by simp at h, fun h => by simp at h⟩
  · split at hr
    · subst hr
      exact ⟨fun h => by simp at h, fun h => by simp at h⟩
    · split at hr
      · subst hr
        exact ⟨fun h => by simp at h, fun h => by simp at h⟩
      · split at hr
        · subst hr
          exact ⟨fun h => by simp at h, fun h => by simp at h⟩
        · split at hr
          · subst hr
            exact ⟨fun h => by simp at h, fun h => by simp at h⟩
          · split at hr
            · subst hr
              exact ⟨fun h => by simp at h, fun h => by simp at h⟩
            · split at hr
              · subst hr
                exact ⟨fun h => by simp at h, fun h => by simp at h⟩
              · split at hr
                · subst hr
                  exact ⟨fun h => by simp at h, fun h => by simp at h⟩
                · exact mainPlanPhase_c4_spec env _ _ r hr

/-- C4 witness: a concrete dirty-tree run with -stash in which every git
command succeeds except the final stash apply. -/
theorem c4_stash_drop_only_after_apply_witness :
    (Env.mk true false (UserInput.mk 2 "" true false false false false true)
        true false repoABC true "20240101-000000" true none
        (Oracle.mk true true true true true false true)).oracle.stashApplyOk = false ∧
    Step.stashPush ∈ (mainRun (Env.mk true false
        (UserInput.mk 2 "" true false false false false true)
        true false repoABC true "20240101-000000" true none
        (Oracle.mk true true true true true false true))).trace ∧
    Step.stashApply ∈ (mainRun (Env.mk true false
        (UserInput.mk 2 "" true false false false false true)
        true false repoABC true "20240101-000000" true none
        (Oracle.mk true true true true true false true))).trace ∧
    Step.stashDrop ∉ (mainRun (Env.mk true false
        (UserInput.mk 2 "" true false false false false true)
        true false repoABC true "20240101-000000" true none
        (Oracle.mk true true true true true false true))).trace ∧
    (mainRun (Env.mk true false (UserInput.mk 2 "" true false false false false true)
        true false repoABC true "20240101-000000" true none
        (Oracle.mk true true true true true false true))).repo.stashCount =
      (Env.mk true false (UserInput.mk 2 "" true false false false false true)
        true false repoABC true "20240101-000000" true none
        (Oracle.mk true true true true true false true)).repo.stashCount + 1 ∧
    ∃ hint, (mainRun (Env.mk true false
        (UserInput.mk 2 "" true false false false false true)
        true false repoABC true "20240101-000000" true none
        (Oracle.mk true true true true true false true))).fatalMsg =
      "Stash apply failed (stash preserved as " ++ stashRefName ++ ")" ++ hint :=
  (c4_stash_drop_only_after_apply _ _ rfl).1 (by decide)


/-! Helper lemmas for the backup branch name linear probe. -/

theorem backupTry_created_spec (branches : List String) (base : String) (ok : Bool) :
    ∀ (m s : Nat) (name : String),
    backupTry branches base ok (List.range' s m) = .created name →
    ok = true ∧ name ∉ branches ∧
    ∃ k, s ≤ k ∧ k < s + m ∧ name = candidateName base k ∧
      ∀ j, s ≤ j → j < k → candidateName base j ∈ branches := by
  intro m
  induction m with
  | zero =>
    intro s name h
    simp [backupTry] at h
  | succ m ih =>
    intro s name h
    rw [List.range'_succ] at h
    simp only [backupTry] at h
    split at h
    · rename_i hmem
      obtain ⟨hok, hnm, k, hsk, hkm, hnk, hall⟩ := ih (s + 1) name h
      refine ⟨hok, hnm, k, by omega, by omega, hnk, ?_⟩
      intro j hj hjk
      rcases Nat.eq_or_lt_of_le hj with heq | hlt
      · rw [← heq]; exact hmem
      · exact hall j hlt hjk
    · rename_i hmem
      split at h
      · rename_i hok
        have hn : candidateName base s = name := by
          injection h
        refine ⟨by simpa using hok, by rw [← hn]; exact hmem, s, le_refl s,
          by omega, hn.symm, ?_⟩
        intro j hj hjk
        omega
      · cases h

theorem backupTry_exhausted_spec (branches : List String) (base : String) (ok : Bool) :
    ∀ (m s : Nat),
    (∀ j, s ≤ j → j < s + m → candidateName base j ∈ branches) →
    backupTry branches base ok (List.range' s m) = .exhausted := by
  intro m
  induction m with
  | zero =>
    intro s _
    simp [backupTry]
  | succ m ih =>
    intro s hall
    rw [List.range'_succ]
    simp only [backupTry]
    rw [if_pos (hall s (le_refl s) (by omega))]
    exact ih (s + 1) (fun j hj hjm => hall j (by omega) (by omega))

/-- C5: when the computed backup branch name is taken, backup creation
retries candidate names with numeric suffixes -2, -3, ... up to a bounded
number of attempts (erroring once all ten candidates exist); the first
free candidate becomes the branch actually created; the final, possibly
suffixed, name is the one recorded for all later output and recovery
hints; and two runs within the same name-resolution window produce two
distinct backup branches. -/
theorem c5_backup_branch_suffix_retry :
    (∀ (branches : List String) (base : String) (ok : Bool) (name : String),
      createBackupBranch branches base ok = .created name →
      name ∉ branches ∧
      ∃ k, k < maxAttempts ∧ name = candidateName base k ∧
        ∀ j, j < k → candidateName base j ∈ branches) ∧
    (∀ (branches : List String) (base : String) (ok : Bool),
      (∀ j, j < maxAttempts → candidateName base j ∈ branches) →
      createBackupBranch branches base ok = .exhausted) ∧
    (∀ (base : String) (i : Nat), 1 ≤ i →
      candidateName base i = base ++ "-" ++ toString (i + 1)) ∧
    (∀ (branches : List String) (base : String) (ok : Bool) (name1 name2 : String),
      createBackupBranch branches base ok = .created name1 →
      createBackupBranch (name1 :: branches) base ok = .created name2 →
      name1 ≠ name2) ∧
    (∀ (env : Env) (r : RunResult), mainRun env = r → r.outcome = .squashed →
      env.input.noBackup = false →
      ∃ name, createBackupBranch env.repo.branches (backupBaseName env.nowStamp)
          env.oracle.branchOk = .created name ∧
        r.backupName = some name ∧ name ∈ r.repo.branches) := by
  refine ⟨?_, ?_, ?_, ?_, ?_⟩
  · intro branches base ok name h
    rw [createBackupBranch, List.range_eq_range'] at h
    obtain ⟨_, hnm, k, _, hkm, hnk, hall⟩ :=
      backupTry_created_spec branches base ok maxAttempts 0 name h
    exact ⟨hnm, k, by omega, hnk, fun j hj => hall j (Nat.zero_le j) hj⟩
  · intro branches base ok hall
    rw [createBackupBranch, List.range_eq_range']
    exact backupTry_exhausted_spec branches base ok maxAttempts 0
      (fun j _ hj => hall j (by omega))
  · intro base i hi
    rw [candidateName, if_neg (by omega)]
  · intro branches base ok name1 name2 h1 h2
    intro heq
    have hnm := (by
      rw [createBackupBranch, List.range_eq_range'] at h2
      exact (backupTry_created_spec (name1 :: branches) base ok maxAttempts 0
        name2 h2).2.1)
    rw [heq] at hnm
    exact hnm (List.mem_cons_self _ _)
  · intro env r hr h hnb
    obtain ⟨_, _, hcnt, hlt, w, hplan⟩ := mainRun_squashed_spec env r hr h
    obtain ⟨oldest, tip, target, holdest, htip, htarget, hch, hdr, hpr, hexec⟩ :=
      mainPlanPhase_squashed_spec env _ w r hplan h
    exact (execStash_squashed_spec _ _ r hexec h).2.2.1 hnb

/-- C5 witness: a collision on the base name yields the -2 suffix; two
consecutive runs give distinct names; the created name is the one the
successful concrete run reports. -/
theorem c5_backup_branch_suffix_retry_witness :
    ("locsquash/backup-t-2" ∉ (["locsquash/backup-t"] : List String) ∧
      ∃ k, k < maxAttempts ∧
        "locsquash/backup-t-2" = candidateName "locsquash/backup-t" k ∧
        ∀ j, j < k →
          candidateName "locsquash/backup-t" j ∈
            (["locsquash/backup-t"] : List String)) ∧
    candidateName "locsquash/backup-t" 1 =
      "locsquash/backup-t" ++ "-" ++ toString 2 ∧
    "locsquash/backup-t" ≠ "locsquash/backup-t-2" ∧
    ∃ name, createBackupBranch envBase.repo.branches
        (backupBaseName envBase.nowStamp) envBase.oracle.branchOk =
        .created name ∧
      (mainRun envBase).backupName = some name ∧
      name ∈ (mainRun envBase).repo.branches :=
  ⟨c5_backup_branch_suffix_retry.1 ["locsquash/backup-t"] "locsquash/backup-t"
      true "locsquash/backup-t-2" (by decide),
   c5_backup_branch_suffix_retry.2.2.1 "locsquash/backup-t" 1 (by decide),
   c5_backup_branch_suffix_retry.2.2.2.1 [] "locsquash/backup-t" true
      "locsquash/backup-t" "locsquash/backup-t-2" (by decide) (by decide),
   c5_backup_branch_suffix_retry.2.2.2.2 envBase (mainRun envBase) rfl
      (by decide) (by decide)⟩


/-! Helper lemmas: each executor phase reports the warning flag and the
plan-printed flag of its context, and the possible fatal reasons of the
executor are the mutating-step failures. -/

theorem execRestore_flags (ctx : ExecCtx) (stashed : Bool) (repo : GitRepo)
    (trace : List Step) (bn : Option String) :
    (execRestore ctx stashed repo trace bn).warned = ctx.warned ∧
    (execRestore ctx stashed repo trace bn).printedPlan = ctx.printedPlan := by
  simp only [execRestore]
  split
  · split
    · exact ⟨rfl, rfl⟩
    · split
      · exact ⟨rfl, rfl⟩
      · exact ⟨rfl, rfl⟩
  · exact ⟨rfl, rfl⟩

theorem execCommit_flags (ctx : ExecCtx) (stashed : Bool) (repo : GitRepo)
    (trace : List Step) (bn : Option String) :
    (execCommit ctx stashed repo trace bn).warned = ctx.warned ∧
    (execCommit ctx stashed repo trace bn).printedPlan = ctx.printedPlan := by
  simp only [execCommit]
  split
  · exact ⟨rfl, rfl⟩
  · exact execRestore_flags ctx stashed _ _ bn

theorem execReset_flags (ctx : ExecCtx) (stashed : Bool) (repo : GitRepo)
    (trace : List Step) (bn : Option String) :
    (execReset ctx stashed repo trace bn).warned = ctx.warned ∧
    (execReset ctx stashed repo trace bn).printedPlan = ctx.printedPlan := by
  simp only [execReset]
  split
  · exact ⟨rfl, rfl⟩
  · exact execCommit_flags ctx stashed _ _ bn

theorem execBackup_flags (ctx : ExecCtx) (stashed : Bool) (repo : GitRepo)
    (trace : List Step) :
    (execBackup ctx stashed repo trace).warned = ctx.warned ∧
    (execBackup ctx stashed repo trace).printedPlan = ctx.printedPlan := by
  simp only [execBackup]
  split
  · split
    · exact execReset_flags ctx stashed _ _ _
    · exact ⟨rfl, rfl⟩
    · exact ⟨rfl, rfl⟩
  · exact execReset_flags ctx stashed _ _ _

theorem execStash_flags (ctx : ExecCtx) (repo : GitRepo) :
    (execStash ctx repo).warned = ctx.warned ∧
    (execStash ctx repo).printedPlan = ctx.printedPlan := by
  simp only [execStash]
  split
  · split
    · exact ⟨rfl, rfl⟩
    · split
      · exact ⟨rfl, rfl⟩
      · exact execBackup_flags ctx true _ _
  · exact execBackup_flags ctx false _ _

theorem mainPlanPhase_warned (env : Env) (n : Nat) (w : Bool) :
    (mainPlanPhase env n w).warned = w := by
  simp only [mainPlanPhase]
  split
  · rfl
  · split
    · rfl
    · split
      · rfl
      · split
        · rfl
        · split
          · rfl
          · simp only [mainConfirmPhase]
            split
            · rfl
            · rfl
            · exact (execStash_flags _ _).1

theorem mainPlanPhase_preview_spec (env : Env) (n : Nat) (w : Bool) (r : RunResult)
    (hr : mainPlanPhase env n w = r)
    (hprev : (env.input.dryRun || env.input.printRecovery) = true) :
    r.trace = [] ∧ r.repo = env.repo ∧
    ∀ reason, r.outcome = .fatalExit reason →
      reason = .oldestMsgErr ∨ reason = .dateErr ∨ reason = .diffErr ∨
        reason = .noNetChanges := by
  simp only [mainPlanPhase] at hr
  split at hr
  · subst hr
    exact ⟨rfl, rfl, fun reason h => by simp at h; exact Or.inl h.symm⟩
  · split at hr
    · subst hr
      exact ⟨rfl, rfl, fun reason h => by simp at h; exact Or.inr (Or.inl h.symm)⟩
    · split at hr
      · subst hr
        exact ⟨rfl, rfl, fun reason h => by
          simp at h; exact Or.inr (Or.inr (Or.inl h.symm))⟩
      · split at hr
        · subst hr
          exact ⟨rfl, rfl, fun reason h => by
            simp at h; exact Or.inr (Or.inr (Or.inr h.symm))⟩
        · subst hr
          exact ⟨rfl, rfl, fun reason h => by simp at h⟩

/-- C3: in preview modes (-dry-run or -print-recovery) no mutating step
runs and the repository state is unchanged, a dirty tree without -stash
is never the dirty-tree fatal and (once the earlier checks pass) only
produces the warning, whereas a real run with a dirty tree and no -stash
refuses to proceed. -/
theorem c3_preview_never_mutates (env : Env) (r : RunResult)
    (hr : mainRun env = r) :
    ((env.input.dryRun = true ∨ env.input.printRecovery = true) →
      r.trace = [] ∧ r.repo = env.repo ∧
      r.outcome ≠ .fatalExit .dirtyNoStash ∧
      (env.gitInstalled = true → env.showVersion = false →
        2 ≤ env.input.squashCount → env.insideRepo = true →
        env.opInProgress = false → 2 ≤ env.repo.commits.length →
        env.input.squashCount.toNat < env.repo.commits.length →
        env.dirty = true → env.input.allowStash = false → r.warned = true)) ∧
    (env.input.dryRun = false → env.input.printRecovery = false →
      env.gitInstalled = true → env.showVersion = false →
      2 ≤ env.input.squashCount → env.insideRepo = true →
      env.opInProgress = false → 2 ≤ env.repo.commits.length →
      env.input.squashCount.toNat < env.repo.commits.length →
      env.dirty = true → env.input.allowStash = false →
      r.outcome = .fatalExit .dirtyNoStash ∧ r.exitCode = 1 ∧
      r.trace = []) := by
  constructor
  · intro hprev
    have hprevb : (env.input.dryRun || env.input.printRecovery) = true := by
      rcases hprev with h | h <;> simp [h]
    simp only [mainRun] at hr
    split at hr
    · subst hr
      exact ⟨rfl, rfl, by simp, fun hg => by simp_all⟩
    · split at hr
      · subst hr
        exact ⟨rfl, rfl, by simp, fun _ hv => by simp_all⟩
      · split at hr
        · rename_i hlt2
          subst hr
          exact ⟨rfl, rfl, by simp, fun _ _ hc => by omega⟩
        · split at hr
          · subst hr
            exact ⟨rfl, rfl, by simp, fun _ _ _ hir => by simp_all⟩
          · split at hr
            · subst hr
              exact ⟨rfl, rfl, by simp, fun _ _ _ _ hip => by simp_all⟩
            · split at hr
              · rename_i htot2
                subst hr
                exact ⟨rfl, rfl, by simp, fun _ _ _ _ _ ht => by omega⟩
              · split at hr
                · rename_i hle
                  subst hr
                  exact ⟨rfl, rfl, by simp, fun _ _ _ _ _ _ hl => by omega⟩
                · split at hr
                  · rename_i hdirty
                    rw [hprevb] at hdirty
                    simp at hdirty
                  · have hps := mainPlanPhase_preview_spec env _ _ r hr hprevb
                    refine ⟨hps.1, hps.2.1, ?_, ?_⟩
                    · intro hout
                      rcases hps.2.2 _ hout with h | h | h | h <;> cases h
                    · intro _ _ _ _ _ _ _ hd hs
                      have hw := mainPlanPhase_warned env env.input.squashCount.toNat
                        (env.dirty && !env.input.allowStash &&
                          (env.input.dryRun || env.input.printRecovery))
                      rw [hr] at hw
                      rw [hw, hd, hs, hprevb]
                      rfl
  · intro hdr hpr hg hv hc hir hip ht hl hd hs
    simp only [mainRun] at hr
    split at hr
    · simp_all
    · split at hr
      · simp_all
      · split at hr
        · rename_i hlt2; omega
        · split at hr
          · simp_all
          · split at hr
            · simp_all
            · split at hr
              · rename_i htot2; omega
              · split at hr
                · rename_i hle; omega
                · split at hr
                  · subst hr
                    exact ⟨rfl, rfl, rfl⟩
                  · rename_i hdirty
                    rw [hd, hs, hdr, hpr] at hdirty
                    simp at hdirty


/-- C3 witness: a dirty-tree dry-run warns and does not mutate; the same
invocation without -dry-run refuses with the dirty-tree fatal. -/
theorem c3_preview_never_mutates_witness :
    ((mainRun (Env.mk true false (UserInput.mk 2 "" false false true false false true)
        true false repoABC true "20240101-000000" true none oracleAllOk)).trace = [] ∧
     (mainRun (Env.mk true false (UserInput.mk 2 "" false false true false false true)
        true false repoABC true "20240101-000000" true none oracleAllOk)).repo =
       (Env.mk true false (UserInput.mk 2 "" false false true false false true)
        true false repoABC true "20240101-000000" true none oracleAllOk).repo ∧
     (mainRun (Env.mk true false (UserInput.mk 2 "" false false true false false true)
        true false repoABC true "20240101-000000" true none oracleAllOk)).outcome ≠
       .fatalExit .dirtyNoStash ∧
     (mainRun (Env.mk true false (UserInput.mk 2 "" false false true false false true)
        true false repoABC true "20240101-000000" true none oracleAllOk)).warned = true) ∧
    ((mainRun (Env.mk true false (UserInput.mk 2 "" false false false false false true)
        true false repoABC true "20240101-000000" true none oracleAllOk)).outcome =
       .fatalExit .dirtyNoStash ∧
     (mainRun (Env.mk true false (UserInput.mk 2 "" false false false false false true)
        true false repoABC true "20240101-000000" true none oracleAllOk)).exitCode = 1 ∧
     (mainRun (Env.mk true false (UserInput.mk 2 "" false false false false false true)
        true false repoABC true "20240101-000000" true none oracleAllOk)).trace = []) := by
  constructor
  · have h1 := (c3_preview_never_mutates
      (Env.mk true false (UserInput.mk 2 "" false false true false false true)
        true false repoABC true "20240101-000000" true none oracleAllOk) _ rfl).1
      (Or.inl rfl)
    exact ⟨h1.1, h1.2.1, h1.2.2.1,
      h1.2.2.2 rfl rfl (by decide) rfl rfl (by decide) (by decide) rfl rfl⟩
  · exact (c3_preview_never_mutates
      (Env.mk true false (UserInput.mk 2 "" false false false false false true)
        true false repoABC true "20240101-000000" true none oracleAllOk) _ rfl).2
      rfl rfl rfl rfl (by decide) rfl rfl (by decide) (by decide) rfl rfl

/-! Helper lemmas: the possible outcomes of the executor. -/

theorem execRestore_outcome_cases (ctx : ExecCtx) (stashed : Bool) (repo : GitRepo)
    (trace : List Step) (bn : Option String) :
    (execRestore ctx stashed repo trace bn).outcome = .squashed ∨
    (execRestore ctx stashed repo trace bn).outcome = .fatalExit .stashApplyFail ∨
    (execRestore ctx stashed repo trace bn).outcome = .fatalExit .stashDropFail := by
  simp only [execRestore]
  split
  · split
    · exact Or.inr (Or.inl rfl)
    · split
      · exact Or.inr (Or.inr rfl)
      · exact Or.inl rfl
  · exact Or.inl rfl

theorem execCommit_outcome_cases (ctx : ExecCtx) (stashed : Bool) (repo : GitRepo)
    (trace : List Step) (bn : Option String) :
    (execCommit ctx stashed repo trace bn).outcome = .squashed ∨
    (execCommit ctx stashed repo trace bn).outcome = .fatalExit .commitFail ∨
    (execCommit ctx stashed repo trace bn).outcome = .fatalExit .stashApplyFail ∨
    (execCommit ctx stashed repo trace bn).outcome = .fatalExit .stashDropFail := by
  simp only [execCommit]
  split
  · exact .inr (.inl rfl)
  · rcases execRestore_outcome_cases ctx stashed _ _ bn with h | h | h
    exacts [.inl h, .inr (.inr (.inl h)), .inr (.inr (.inr h))]

theorem execReset_outcome_cases (ctx : ExecCtx) (stashed : Bool) (repo : GitRepo)
    (trace : List Step) (bn : Option String) :
    (execReset ctx stashed repo trace bn).outcome = .squashed ∨
    (execReset ctx stashed repo trace bn).outcome = .fatalExit .resetFail ∨
    (execReset ctx stashed repo trace bn).outcome = .fatalExit .commitFail ∨
    (execReset ctx stashed repo trace bn).outcome = .fatalExit .stashApplyFail ∨
    (execReset ctx stashed repo trace bn).outcome = .fatalExit .stashDropFail := by
  simp only [execReset]
  split
  · exact .inr (.inl rfl)
  · rcases execCommit_outcome_cases ctx stashed _ _ bn with h | h | h | h
    exacts [.inl h, .inr (.inr (.inl h)), .inr (.inr (.inr (.inl h))),
      .inr (.inr (.inr (.inr h)))]

theorem execBackup_outcome_cases (ctx : ExecCtx) (stashed : Bool) (repo : GitRepo)
    (trace : List Step) :
    (execBackup ctx stashed repo trace).outcome = .squashed ∨
    (execBackup ctx stashed repo trace).outcome = .fatalExit .backupFail ∨
    (execBackup ctx stashed repo trace).outcome = .fatalExit .resetFail ∨
    (execBackup ctx stashed repo trace).outcome = .fatalExit .commitFail ∨
    (execBackup ctx stashed repo trace).outcome = .fatalExit .stashApplyFail ∨
    (execBackup ctx stashed repo trace).outcome = .fatalExit .stashDropFail := by
  simp only [execBackup]
  split
  · split
    · rcases execReset_outcome_cases ctx stashed _ _ _ with h | h | h | h | h
      exacts [.inl h, .inr (.inr (.inl h)), .inr (.inr (.inr (.inl h))),
        .inr (.inr (.inr (.inr (.inl h)))), .inr (.inr (.inr (.inr (.inr h))))]
    · exact .inr (.inl rfl)
    · exact .inr (.inl rfl)
  · rcases execReset_outcome_cases ctx stashed _ _ _ with h | h | h | h | h
    exacts [.inl h, .inr (.inr (.inl h)), .inr (.inr (.inr (.inl h))),
      .inr (.inr (.inr (.inr (.inl h)))), .inr (.inr (.inr (.inr (.inr h))))]

theorem execStash_outcome_cases (ctx : ExecCtx) (repo : GitRepo) :
    (execStash ctx repo).outcome = .squashed ∨
    (execStash ctx repo).outcome = .fatalExit .stashPushFail ∨
    (execStash ctx repo).outcome = .fatalExit .backupFail ∨
    (execStash ctx repo).outcome = .fatalExit .resetFail ∨
    (execStash ctx repo).outcome = .fatalExit .commitFail ∨
    (execStash ctx repo).outcome = .fatalExit .stashApplyFail ∨
    (execStash ctx repo).outcome = .fatalExit .stashDropFail := by
  simp only [execStash]
  split
  · split
    · exact .inr (.inl rfl)
    · split
      · exact .inr (.inl rfl)
      · rcases execBackup_outcome_cases ctx true _ _ with h | h | h | h | h | h
        exacts [.inl h, .inr (.inr (.inl h)), .inr (.inr (.inr (.inl h))),
          .inr (.inr (.inr (.inr (.inl h)))),
          .inr (.inr (.inr (.inr (.inr (.inl h))))),
          .inr (.inr (.inr (.inr (.inr (.inr h)))))]
  · rcases execBackup_outcome_cases ctx false _ _ with h | h | h | h | h | h
    exacts [.inl h, .inr (.inr (.inl h)), .inr (.inr (.inr (.inl h))),
      .inr (.inr (.inr (.inr (.inl h)))),
      .inr (.inr (.inr (.inr (.inr (.inl h))))),
      .inr (.inr (.inr (.inr (.inr (.inr h)))))]


/-- C6: when the diff between the reset target (N commits behind the
tip) and the tip shows no content change, a run without -allow-empty
fails fatally before any mutation, while a run with -allow-empty passes
the guard and, when it succeeds, creates the squashed commit with the
allow-empty option and no content delta against its parent. -/
theorem c6_no_net_change_guard (env : Env) (tip target : Commit) (r : RunResult)
    (hr : mainRun env = r)
    (hgit : env.gitInstalled = true) (hver : env.showVersion = false)
    (hcnt : 2 ≤ env.input.squashCount)
    (hrepo : env.insideRepo = true) (hop : env.opInProgress = false)
    (htot : 2 ≤ env.repo.commits.length)
    (hlt : env.input.squashCount.toNat < env.repo.commits.length)
    (hclean : (env.dirty && !env.input.allowStash &&
      !(env.input.dryRun || env.input.printRecovery)) = false)
    (htip : env.repo.commits.get? 0 = some tip)
    (htarget : env.repo.commits.get? env.input.squashCount.toNat = some target)
    (hnochange : target.tree = tip.tree) :
    (env.input.allowEmpty = false →
      r.outcome = .fatalExit .noNetChanges ∧ r.exitCode = 1 ∧
      r.trace = [] ∧ r.repo = env.repo) ∧
    (env.input.allowEmpty = true →
      r.outcome ≠ .fatalExit .noNetChanges ∧
      (r.outcome = .squashed →
        (∃ d m, Step.commitCreate d d m true ∈ r.trace) ∧
        ∃ newTip, r.repo.commits.get? 0 = some newTip ∧
          newTip.tree = target.tree)) := by
  have hplan : mainPlanPhase env env.input.squashCount.toNat
      (env.dirty && !env.input.allowStash &&
        (env.input.dryRun || env.input.printRecovery)) = r := by
    simp only [mainRun] at hr
    split at hr
    · simp_all
    · split at hr
      · simp_all
      · split at hr
        · omega
        · split at hr
          · simp_all
          · split at hr
            · simp_all
            · split at hr
              · omega
              · split at hr
                · omega
                · split at hr
                  · rename_i hdirty
                    rw [hclean] at hdirty
                    cases hdirty
                  · exact hr
  clear hr
  simp only [mainPlanPhase] at hplan
  split at hplan
  · rename_i heq
    have := List.get?_eq_none.mp heq
    omega
  · rename_i tip2 htip2
    split at hplan
    · rename_i heq
      rw [htip] at heq
      cases heq
    · rename_i tip3 htip3
      have htt : tip3 = tip := by
        rw [htip] at htip3
        exact (Option.some_inj.mp htip3).symm
      subst htt
      split at hplan
      · rename_i heq
        rw [htarget] at heq
        cases heq
      · rename_i target2 htarget2
        have htt2 : target2 = target := by
          rw [htarget] at htarget2
          exact (Option.some_inj.mp htarget2).symm
        subst htt2
        constructor
        · intro hAE
          split at hplan
          · subst hplan
            exact ⟨rfl, rfl, rfl, rfl⟩
          · rename_i hcond
            exact absurd ⟨by simp [hnochange], hAE⟩ hcond
        · intro hAE
          split at hplan
          · rename_i hcond
            rw [hAE] at hcond
            cases hcond.2
          · split at hplan
            · subst hplan
              exact ⟨by simp, fun hsq => by simp at hsq⟩
            · constructor
              · intro hout
                simp only [mainConfirmPhase] at hplan
                split at hplan
                · subst hplan; simp at hout
                · subst hplan; simp at hout
                · have hcases := hplan ▸ execStash_outcome_cases _ env.repo
                  rcases hcases with h | h | h | h | h | h | h <;>
                    rw [h] at hout <;> simp at hout
              · intro hsq
                have hcf := mainConfirmPhase_squashed_spec env _ _ _ _ _ r hplan hsq
                have hsp := execStash_squashed_spec _ _ r hcf hsq
                constructor
                · refine ⟨trimSpace tip3.cDate,
                    (if trimSpace env.input.newMessage = "" then trimSpace tip2.message
                     else trimSpace env.input.newMessage), ?_⟩
                  have := hsp.2.1
                  rw [hAE] at this
                  exact this
                · refine ⟨_, by rw [hsp.1]; rfl, ?_⟩
                  simpa using hnochange.symm


/-- C6 witness: on `repoNoChange` the run without -allow-empty fails with
the no-net-changes fatal and mutates nothing, while the run with
-allow-empty succeeds and commits with the allow-empty option and no
content delta. -/
theorem c6_no_net_change_guard_witness :
    ((mainRun (Env.mk true false inputYes2 true false repoNoChange false
        "20240101-000000" true none oracleAllOk)).outcome =
       .fatalExit .noNetChanges ∧
     (mainRun (Env.mk true false inputYes2 true false repoNoChange false
        "20240101-000000" true none oracleAllOk)).exitCode = 1 ∧
     (mainRun (Env.mk true false inputYes2 true false repoNoChange false
        "20240101-000000" true none oracleAllOk)).trace = [] ∧
     (mainRun (Env.mk true false inputYes2 true false repoNoChange false
        "20240101-000000" true none oracleAllOk)).repo =
       (Env.mk true false inputYes2 true false repoNoChange false
        "20240101-000000" true none oracleAllOk).repo) ∧
    (mainRun (Env.mk true false (UserInput.mk 2 "" false true false false false true)
        true false repoNoChange false "20240101-000000" true none
        oracleAllOk)).outcome = .squashed ∧
    ((mainRun (Env.mk true false (UserInput.mk 2 "" false true false false false true)
        true false repoNoChange false "20240101-000000" true none
        oracleAllOk)).outcome = .squashed →
      (∃ d m, Step.commitCreate d d m true ∈
        (mainRun (Env.mk true false
          (UserInput.mk 2 "" false true false false false true)
          true false repoNoChange false "20240101-000000" true none
          oracleAllOk)).trace) ∧
      ∃ newTip, (mainRun (Env.mk true false
          (UserInput.mk 2 "" false true false false false true)
          true false repoNoChange false "20240101-000000" true none
          oracleAllOk)).repo.commits.get? 0 = some newTip ∧
        newTip.tree =
          (⟨"base", "2024-02-01T10:00:00+02:00", "2024-02-01T10:00:00+02:00", 7⟩ :
            Commit).tree) :=
  ⟨(c6_no_net_change_guard
      (Env.mk true false inputYes2 true false repoNoChange false
        "20240101-000000" true none oracleAllOk)
      ⟨"undo", "2024-02-03T10:00:00+02:00", "2024-02-03T10:00:00+02:00", 7⟩
      ⟨"base", "2024-02-01T10:00:00+02:00", "2024-02-01T10:00:00+02:00", 7⟩
      _ rfl rfl rfl (by decide) rfl rfl (by decide) (by decide) (by decide)
      (by decide) (by decide) rfl).1 rfl,
   by decide,
   ((c6_no_net_change_guard
      (Env.mk true false (UserInput.mk 2 "" false true false false false true)
        true false repoNoChange false "20240101-000000" true none oracleAllOk)
      ⟨"undo", "2024-02-03T10:00:00+02:00", "2024-02-03T10:00:00+02:00", 7⟩
      ⟨"base", "2024-02-01T10:00:00+02:00", "2024-02-01T10:00:00+02:00", 7⟩
      _ rfl rfl rfl (by decide) rfl rfl (by decide) (by decide) (by decide)
      (by decide) (by decide) rfl).2 rfl).2⟩


/-- C7: in a real run without -yes, the commit list and final message are
printed and an affirmative response is required before any mutation: a
non-interactive stdin is a fatal exit with status 1, and a negative or
empty response aborts with exit status 0 and no mutating step run. -/
theorem c7_confirmation_required (env : Env) (tip target : Commit) (r : RunResult)
    (hr : mainRun env = r)
    (hgit : env.gitInstalled = true) (hver : env.showVersion = false)
    (hcnt : 2 ≤ env.input.squashCount)
    (hrepo : env.insideRepo = true) (hop : env.opInProgress = false)
    (htot : 2 ≤ env.repo.commits.length)
    (hlt : env.input.squashCount.toNat < env.repo.commits.length)
    (hclean : (env.dirty && !env.input.allowStash) = false)
    (htip : env.repo.commits.get? 0 = some tip)
    (htarget : env.repo.commits.get? env.input.squashCount.toNat = some target)
    (hch : (target.tree != tip.tree) = true ∨ env.input.allowEmpty = true)
    (hdr : env.input.dryRun = false) (hpr : env.input.printRecovery = false)
    (hyes : env.input.yes = false) :
    r.printedPlan = true ∧
    (env.stdinTerminal = false →
      r.outcome = .fatalExit .stdinNotTerminal ∧ r.exitCode = 1 ∧
      r.trace = [] ∧ r.repo = env.repo) ∧
    (env.stdinTerminal = true →
      (match env.response with
       | some s => affirmative s
       | none => false) = false →
      r.outcome = .abortedByUser ∧ r.exitCode = 0 ∧
      r.trace = [] ∧ r.repo = env.repo) := by
  have hplan : mainPlanPhase env env.input.squashCount.toNat
      (env.dirty && !env.input.allowStash &&
        (env.input.dryRun || env.input.printRecovery)) = r := by
    simp only [mainRun] at hr
    split at hr
    · simp_all
    · split at hr
      · simp_all
      · split at hr
        · omega
        · split at hr
          · simp_all
          · split at hr
            · simp_all
            · split at hr
              · omega
              · split at hr
                · omega
                · split at hr
                  · rename_i hdirty
                    rw [hclean] at hdirty
                    simp at hdirty
                  · exact hr
  clear hr
  simp only [mainPlanPhase] at hplan
  split at hplan
  · rename_i heq
    have := List.get?_eq_none.mp heq
    omega
  · rename_i oldest2 holdest2
    split at hplan
    · rename_i heq
      rw [htip] at heq
      cases heq
    · rename_i tip2 htip2
      have htt : tip2 = tip := by
        rw [htip] at htip2
        exact (Option.some_inj.mp htip2).symm
      subst htt
      split at hplan
      · rename_i heq
        rw [htarget] at heq
        cases heq
      · rename_i target2 htarget2
        have htt2 : target2 = target := by
          rw [htarget] at htarget2
          exact (Option.some_inj.mp htarget2).symm
        subst htt2
        split at hplan
        · rename_i hcond
          rcases hch with hc | hc
          · rw [hcond.1] at hc
            cases hc
          · rw [hcond.2] at hc
            cases hc
        · split at hplan
          · rename_i hprev
            rw [hdr, hpr] at hprev
            simp at hprev
          · simp only [mainConfirmPhase] at hplan
            split at hplan
            · rename_i heq
              rw [hyes] at heq
              simp only [Bool.false_eq_true, if_false] at heq
              subst hplan
              refine ⟨rfl, fun _ => ⟨rfl, rfl, rfl, rfl⟩, ?_⟩
              intro hst _
              rw [promptConfirm.eq_def, if_neg (by simp [hst])] at heq
              cases hresp : env.response with
              | none => rw [hresp] at heq; cases heq
              | some s => rw [hresp] at heq; cases heq
            · rename_i heq
              rw [hyes] at heq
              simp only [Bool.false_eq_true, if_false] at heq
              subst hplan
              refine ⟨rfl, ?_, fun _ _ => ⟨rfl, rfl, rfl, rfl⟩⟩
              intro hst
              rw [promptConfirm.eq_def, if_pos (by simp [hst])] at heq
              cases heq
            · rename_i heq
              rw [hyes] at heq
              simp only [Bool.false_eq_true, if_false] at heq
              constructor
              · have hpp : r.printedPlan = !env.input.yes := by
                  rw [← hplan]
                  exact (execStash_flags _ env.repo).2
                rw [hpp, hyes]
                rfl
              · constructor
                · intro hst
                  rw [promptConfirm.eq_def, if_pos (by simp [hst])] at heq
                  cases heq
                · intro hst hneg
                  rw [promptConfirm.eq_def, if_neg (by simp [hst])] at heq
                  cases hresp : env.response with
                  | none =>
                    rw [hresp] at heq
                    cases heq
                  | some s =>
                    rw [hresp] at heq hneg
                    simp only [Option.some_inj] at heq
                    simp [heq] at hneg


/-- C7 witness: with -yes absent, a non-terminal stdin run exits fatally
after printing the plan, and an interactive "n" response aborts with exit
status 0 and no mutation. -/
theorem c7_confirmation_required_witness :
    ((mainRun (Env.mk true false (UserInput.mk 2 "" false false false false false false)
        true false repoABC false "20240101-000000" false none oracleAllOk)).printedPlan =
      true ∧
     (mainRun (Env.mk true false (UserInput.mk 2 "" false false false false false false)
        true false repoABC false "20240101-000000" false none oracleAllOk)).outcome =
      .fatalExit .stdinNotTerminal ∧
     (mainRun (Env.mk true false (UserInput.mk 2 "" false false false false false false)
        true false repoABC false "20240101-000000" false none oracleAllOk)).exitCode = 1 ∧
     (mainRun (Env.mk true false (UserInput.mk 2 "" false false false false false false)
        true false repoABC false "20240101-000000" false none oracleAllOk)).trace = []) ∧
    ((mainRun (Env.mk true false (UserInput.mk 2 "" false false false false false false)
        true false repoABC false "20240101-000000" true (some "n") oracleAllOk)).printedPlan =
      true ∧
     (mainRun (Env.mk true false (UserInput.mk 2 "" false false false false false false)
        true false repoABC false "20240101-000000" true (some "n") oracleAllOk)).outcome =
      .abortedByUser ∧
     (mainRun (Env.mk true false (UserInput.mk 2 "" false false false false false false)
        true false repoABC false "20240101-000000" true (some "n") oracleAllOk)).exitCode = 0 ∧
     (mainRun (Env.mk true false (UserInput.mk 2 "" false false false false false false)
        true false repoABC false "20240101-000000" true (some "n") oracleAllOk)).trace = [] ∧
     (mainRun (Env.mk true false (UserInput.mk 2 "" false false false false false false)
        true false repoABC false "20240101-000000" true (some "n") oracleAllOk)).repo =
       (Env.mk true false (UserInput.mk 2 "" false false false false false false)
        true false repoABC false "20240101-000000" true (some "n") oracleAllOk).repo) := by
  constructor
  · have h := c7_confirmation_required
      (Env.mk true false (UserInput.mk 2 "" false false false false false false)
        true false repoABC false "20240101-000000" false none oracleAllOk)
      ⟨"third", "2024-01-03T10:00:00+02:00", "2024-01-03T10:00:00+02:00", 3⟩
      ⟨"first", "2024-01-01T10:00:00+02:00", "2024-01-01T10:00:00+02:00", 1⟩
      _ rfl rfl rfl (by decide) rfl rfl (by decide) (by decide) (by decide)
      (by decide) (by decide) (Or.inl (by decide)) rfl rfl rfl
    exact ⟨h.1, (h.2.1 rfl).1, (h.2.1 rfl).2.1, (h.2.1 rfl).2.2.1⟩
  · have h := c7_confirmation_required
      (Env.mk true false (UserInput.mk 2 "" false false false false false false)
        true false repoABC false "20240101-000000" true (some "n") oracleAllOk)
      ⟨"third", "2024-01-03T10:00:00+02:00", "2024-01-03T10:00:00+02:00", 3⟩
      ⟨"first", "2024-01-01T10:00:00+02:00", "2024-01-01T10:00:00+02:00", 1⟩
      _ rfl rfl rfl (by decide) rfl rfl (by decide) (by decide) (by decide)
      (by decide) (by decide) (Or.inl (by decide)) rfl rfl rfl
    have h2 := h.2.2 rfl (by decide)
    exact ⟨h.1, h2.1, h2.2.1, h2.2.2.1, h2.2.2.2⟩

end Locsquash
